import Mathlib

/-!
# Verification of the job-acquisition and deduplication core

A shallow embedding, in Lean 4, of the acquisition-and-deduplication core of
the Discord-Job-Scraper repository (`src/scrapers.py`, `src/database.py`),
together with theorems settling the frozen specification claims.

Conventions of the embedding:
* Python strings are Lean `String`s; per-character operations (`str.lower`,
  `str.strip`, `str.isdigit`) are modelled over `String.data` for the ASCII
  range that all relevant inputs inhabit.
* Python `None`-able values are `Option`s; a dictionary key that may be absent
  is an `Option` field with `none` meaning "key not present".
* Machine-independent Python integers are `Nat`/`Int`; `time.time()` values and
  other real-valued quantities are `ℚ`.
* Fallible code is `Except`; an uncaught Python exception is `.error`.
* The SQLite store of `database.py` is a `List Row` ordered by `date_found`
  descending (most recent first), which is exactly the view that
  `find_similar_job`'s `ORDER BY date_found DESC LIMIT 2000` query reads;
  an `INSERT` with `datetime.now()` as `date_found` is a cons at the head.
-/

/-! ## String primitives (models of Python `str` operations) -/

/-- Python `str.lower()` restricted to the ASCII range (per-character). -/
def lowerStr (s : String) : String := String.mk (s.data.map Char.toLower)

/-- The characters Python `str.strip()` removes (ASCII whitespace). -/
def isPySpace (c : Char) : Bool :=
  c = ' ' || c = '\t' || c = '\n' || c = '\r' || c.toNat = 11 || c.toNat = 12

/-- Python `str.strip()`: drop leading and trailing whitespace. -/
def stripStr (s : String) : String :=
  String.mk (((s.data.dropWhile isPySpace).reverse.dropWhile isPySpace).reverse)

/-- Python `"".join(c for c in s if c.isdigit())` (ASCII digits). -/
def pyDigits (s : String) : String := String.mk (s.data.filter Char.isDigit)

/-- Helper for the Python `in` operator on strings: is `nd` a leading block? -/
def containsAux (nd : List Char) : List Char → Bool
  | [] => nd.isEmpty
  | c :: rest => nd.isPrefixOf (c :: rest) || containsAux nd rest

/-- Python `needle in hay` for strings. -/
def strContains (hay needle : String) : Bool := containsAux needle.data hay.data

/-- Python `s.startswith(pre)`. -/
def leadsWith (s pre : String) : Bool := pre.data.isPrefixOf s.data

/-- Split a character list into maximal space-free tokens. -/
def tokensGo (acc : List Char) : List Char → List String
  | [] => if acc.isEmpty then [] else [String.mk acc.reverse]
  | c :: rest =>
    if c = ' ' then
      if acc.isEmpty then tokensGo [] rest
      else String.mk acc.reverse :: tokensGo [] rest
    else tokensGo (c :: acc) rest

/-- Lower-case, replace non-alphanumeric characters by spaces, split to words. -/
def tokenize (s : String) : List String :=
  tokensGo [] (s.data.map (fun c => if c.isAlphanum then c.toLower else ' '))

/-- Join words with single spaces (Python `" ".join`). -/
def joinSp : List String → String
  | [] => ""
  | [t] => t
  | t :: u :: rest => t ++ " " ++ joinSp (u :: rest)

/-- UTF-8 encoding of one code point (Python `str.encode()` per character). -/
def utf8Char (c : Char) : List Nat :=
  let n := c.toNat
  if n < 128 then [n]
  else if n < 2048 then [192 + n / 64, 128 + n % 64]
  else if n < 65536 then [224 + n / 4096, 128 + (n / 64) % 64, 128 + n % 64]
  else [240 + n / 262144, 128 + (n / 4096) % 64, 128 + (n / 64) % 64, 128 + n % 64]

/-- Python `s.encode()`: the UTF-8 byte sequence of a string. -/
def utf8Bytes (s : String) : List Nat := s.data.flatMap utf8Char

/-- Lower-case hexadecimal digit. -/
def hexChar (n : Nat) : Char :=
  if n < 10 then Char.ofNat (48 + n) else Char.ofNat (87 + n)

/-- `n`-digit lower-case hexadecimal rendering, most significant digit first. -/
def hexDigits : Nat → Nat → List Char
  | 0, _ => []
  | n + 1, x => hexDigits n (x / 16) ++ [hexChar (x % 16)]

/-- Upper-case hexadecimal digit (for percent-encoding). -/
def hexUpper (n : Nat) : Char :=
  if n < 10 then Char.ofNat (48 + n) else Char.ofNat (55 + n)

/-- One character under Python `urllib.parse.quote_plus`. -/
def qpChar (ch : Char) : List Char :=
  if ch = ' ' then ['+']
  else if ch.isAlphanum || ch = '_' || ch = '.' || ch = '-' || ch = '~' then [ch]
  else (utf8Char ch).flatMap (fun b => ['%', hexUpper (b / 16), hexUpper (b % 16)])

/-- Python `urllib.parse.quote_plus` (spaces to `+`, unsafe bytes percent-coded). -/
def quote_plus (s : String) : String := String.mk (s.data.flatMap qpChar)

/-! ## SHA-256 (model of `hashlib.sha256(...).hexdigest()`) -/

/-- Truncate to 32 bits. -/
def u32 (x : Nat) : Nat := x % 4294967296

/-- 32-bit rotate right. -/
def rotr (n x : Nat) : Nat :=
  u32 (Nat.lor (Nat.shiftRight x n) (Nat.shiftLeft x (32 - n)))

/-- 32-bit complement. -/
def compl32 (x : Nat) : Nat := Nat.xor x 4294967295

/-- SHA-256 big sigma-0. -/
def bsig0 (x : Nat) : Nat := Nat.xor (Nat.xor (rotr 2 x) (rotr 13 x)) (rotr 22 x)

/-- SHA-256 big sigma-1. -/
def bsig1 (x : Nat) : Nat := Nat.xor (Nat.xor (rotr 6 x) (rotr 11 x)) (rotr 25 x)

/-- SHA-256 small sigma-0. -/
def ssig0 (x : Nat) : Nat :=
  Nat.xor (Nat.xor (rotr 7 x) (rotr 18 x)) (Nat.shiftRight x 3)

/-- SHA-256 small sigma-1. -/
def ssig1 (x : Nat) : Nat :=
  Nat.xor (Nat.xor (rotr 17 x) (rotr 19 x)) (Nat.shiftRight x 10)

/-- The 64 SHA-256 round constants. -/
def shaK : List Nat :=
  [1116352408, 1899447441, 3049323471, 3921009573,
   961987163, 1508970993, 2453635748, 2870763221,
   3624381080, 310598401, 607225278, 1426881987,
   1925078388, 2162078206, 2614888103, 3248222580,
   3835390401, 4022224774, 264347078, 604807628,
   770255983, 1249150122, 1555081692, 1996064986,
   2554220882, 2821834349, 2952996808, 3210313671,
   3336571891, 3584528711, 113926993, 338241895,
   666307205, 773529912, 1294757372, 1396182291,
   1695183700, 1986661051, 2177026350, 2456956037,
   2730485921, 2820302411, 3259730800, 3345764771,
   3516065817, 3600352804, 4094571909, 275423344,
   430227734, 506948616, 659060556, 883997877,
   958139571, 1322822218, 1537002063, 1747873779,
   1955562222, 2024104815, 2227730452, 2361852424,
   2428436474, 2756734187, 3204031479, 3329325298]

/-- The eight 32-bit words of SHA-256 working state. -/
structure Hs where
  a : Nat
  b : Nat
  c : Nat
  d : Nat
  e : Nat
  f : Nat
  g : Nat
  h : Nat

/-- SHA-256 initial hash value. -/
def shaH0 : Hs :=
  ⟨1779033703, 3144134277, 1013904242, 2773480762,
   1359893119, 2600822924, 528734635, 1541459225⟩

/-- One SHA-256 compression round. -/
def shaRound (s : Hs) (ki wi : Nat) : Hs :=
  let t1 := u32 (s.h + u32 (bsig1 s.e) +
    Nat.xor (Nat.land s.e s.f) (Nat.land (compl32 s.e) s.g) + ki + wi)
  let t2 := u32 (u32 (bsig0 s.a) +
    Nat.xor (Nat.xor (Nat.land s.a s.b) (Nat.land s.a s.c)) (Nat.land s.b s.c))
  ⟨u32 (t1 + t2), s.a, s.b, s.c, u32 (s.d + t1), s.e, s.f, s.g⟩

/-- Run the 64 compression rounds. -/
def shaRounds (s : Hs) (kw : List (Nat × Nat)) : Hs :=
  kw.foldl (fun t p => shaRound t p.1 p.2) s

/-- Big-endian 32-bit words from a byte list. -/
def beWords : List Nat → List Nat
  | b0 :: b1 :: b2 :: b3 :: rest =>
    (((b0 * 256 + b1) * 256 + b2) * 256 + b3) :: beWords rest
  | _ => []

/-- Extend the 16 message words to 64 schedule words. -/
def extendW : Nat → List Nat → List Nat
  | 0, w => w
  | n + 1, w =>
    let L := w.length
    extendW n (w ++ [u32 (ssig1 (w.getD (L - 2) 0) + w.getD (L - 7) 0 +
      ssig0 (w.getD (L - 15) 0) + w.getD (L - 16) 0)])

/-- Big-endian byte rendering of a number in `n` bytes. -/
def beBytes : Nat → Nat → List Nat
  | 0, _ => []
  | n + 1, x => beBytes n (x / 256) ++ [x % 256]

/-- SHA-256 message padding. -/
def shaPad (msg : List Nat) : List Nat :=
  msg ++ 128 :: List.replicate ((119 - msg.length % 64) % 64) 0 ++
    beBytes 8 (msg.length * 8)

/-- Split into 64-byte blocks (fuel-driven, fuel bounds the block count). -/
def chunksGo : Nat → List Nat → List (List Nat)
  | 0, _ => []
  | _, [] => []
  | fuel + 1, x :: rest => ((x :: rest).take 64) :: chunksGo fuel ((x :: rest).drop 64)

/-- Word-wise modular addition of hash states. -/
def addHs (x y : Hs) : Hs :=
  ⟨u32 (x.a + y.a), u32 (x.b + y.b), u32 (x.c + y.c), u32 (x.d + y.d),
   u32 (x.e + y.e), u32 (x.f + y.f), u32 (x.g + y.g), u32 (x.h + y.h)⟩

/-- Process one 64-byte block. -/
def shaBlock (h : Hs) (block : List Nat) : Hs :=
  addHs h (shaRounds h (shaK.zip (extendW 48 (beWords block))))

/-- `hashlib.sha256(s.encode()).hexdigest()`. -/
def sha256hex (s : String) : String :=
  let padded := shaPad (utf8Bytes s)
  let hv := (chunksGo padded.length padded).foldl shaBlock shaH0
  String.mk (hexDigits 8 hv.a ++ hexDigits 8 hv.b ++ hexDigits 8 hv.c ++
    hexDigits 8 hv.d ++ hexDigits 8 hv.e ++ hexDigits 8 hv.f ++
    hexDigits 8 hv.g ++ hexDigits 8 hv.h)

/-- `hashlib.sha256(s.encode()).hexdigest()[:16]`. -/
def sha256hex16 (s : String) : String := String.mk ((sha256hex s).data.take 16)

/-! ## Calendar model (Python `datetime` at day granularity)

Days are proleptic-Gregorian ordinals as in `datetime.date.toordinal()`:
day 1 is 0001-01-01, the first representable `datetime` date, and
day 3652059 is 9999-12-31, the last. Subtracting `timedelta(days = k)` from a
`datetime` moves its ordinal down by `k`; the result must stay at ordinal 1 or
above, otherwise Python raises `OverflowError`. A `timedelta` itself is
constructible only for at most 999999999 days, also raising `OverflowError`
beyond that. -/

/-- The ordinal of 9999-12-31, the largest `datetime.date`. -/
def maxOrdinal : Int := 3652059

/-- Ordinal of 1970-01-01 (the Unix epoch) in `datetime.date.toordinal()` terms. -/
def epochOrdinal : Int := 719163

/-- Gregorian `(year, month, day)` of an ordinal (valid for ordinals from 1). -/
def civilFromOrd (ord : Int) : Nat × Nat × Nat :=
  let z := (ord + 305).toNat
  let era := z / 146097
  let doe := z % 146097
  let yoe := (doe - doe / 1460 + doe / 36524 - doe / 146096) / 365
  let y := yoe + era * 400
  let doy := doe - (365 * yoe + yoe / 4 - yoe / 100)
  let mp := (5 * doy + 2) / 153
  let d := doy - (153 * mp + 2) / 5 + 1
  let m := if mp < 10 then mp + 3 else mp - 9
  (if m ≤ 2 then y + 1 else y, m, d)

/-- Two-digit zero padding (`strftime` `%m`, `%d`). -/
def pad2 (n : Nat) : String := if n < 10 then "0" ++ toString n else toString n

/-- `datetime.strftime("%Y-%m-%d")` of the date with the given ordinal. -/
def formatDate (ord : Int) : String :=
  let c := civilFromOrd ord
  toString c.1 ++ "-" ++ pad2 c.2.1 ++ "-" ++ pad2 c.2.2

/-- Accumulate the value of a decimal digit string. -/
def digitsVal (acc : Nat) : List Char → Nat
  | [] => acc
  | c :: rest => digitsVal (acc * 10 + (c.toNat - 48)) rest

/-- Python `int(s or dflt)` for a string of decimal digits. -/
def pyInt (s : String) (dflt : Nat) : Nat :=
  if s.data.isEmpty then dflt else digitsVal 0 s.data

/-- `scrapers._parse_relative_date`, at day granularity: the ordinal of the
produced date (`some d`), `none` for the empty-string result, and `.error ()`
when the Python code raises `OverflowError` (a `timedelta` of more than
999999999 days, or a date before ordinal 1). `today` is the ordinal of
`datetime.now()`'s date. -/
def _parse_relative_date_ord (text : String) (today : Int) : Except Unit (Option Int) :=
  if text = "" then .ok none
  else
    let tl := lowerStr text
    if strContains tl "today" || strContains tl "just" then .ok (some today)
    else if strContains tl "day" then
      let days : Nat := pyInt (pyDigits text) 0
      if days > 999999999 then .error ()
      else if today - (days : Int) < 1 then .error ()
      else .ok (some (today - (days : Int)))
    else if strContains tl "hour" then .ok (some today)
    else if strContains tl "week" then
      let weeks : Nat := pyInt (pyDigits text) 1
      if weeks * 7 > 999999999 then .error ()
      else if today - (weeks * 7 : Nat) < 1 then .error ()
      else .ok (some (today - (weeks * 7 : Nat)))
    else if strContains tl "month" then
      let months : Nat := pyInt (pyDigits text) 1
      if months * 30 > 999999999 then .error ()
      else if today - (months * 30 : Nat) < 1 then .error ()
      else .ok (some (today - (months * 30 : Nat)))
    else .ok none

/-- `scrapers._parse_relative_date`: the returned string (`.error ()` when the
Python code raises `OverflowError`). -/
def _parse_relative_date (text : String) (today : Int) : Except Unit String :=
  match _parse_relative_date_ord text today with
  | .error e => .error e
  | .ok none => .ok ""
  | .ok (some d) => .ok (formatDate d)

/-- `datetime.fromtimestamp(ts).strftime("%Y-%m-%d")`, modelled at UTC:
`.error ()` when the timestamp falls outside the years 1..9999 (Python raises
there). -/
def tsToDateStr (ts : ℚ) : Except Unit String :=
  let ord : Int := Int.floor (ts / 86400) + epochOrdinal
  if ord < 1 || maxOrdinal < ord then .error () else .ok (formatDate ord)

/-! ## Data model: job records and the persistent store (`database.py`) -/

/-- A job dictionary as produced by the extractors and consumed by
`insert_job`. `job_id` is the optional pre-assigned identity
(`job.get("job_id")`, never set by the extractors); `date_posted` is `none`
when the extractor emitted no `date_posted` key at all. -/
structure Job where
  job_id : Option String
  portal : String
  company : String
  role : String
  salary : Option String
  salary_currency : String
  location : String
  job_description : String
  apply_url : String
  date_posted : Option String
deriving DecidableEq, Repr

/-- A stored `job_listings` row (the columns the acquisition core reads and
writes; downstream annotation columns are not modelled). -/
structure Row where
  job_id : String
  portal : String
  company : String
  role : String
  salary : Option String
  salary_currency : String
  location : String
  job_description : String
  apply_url : String
  date_posted : Option String
deriving DecidableEq, Repr

/-- `database.generate_job_id`: SHA-256 of
`f"{portal}:{company}:{role}:{location}".lower().strip()`, truncated to the
first 16 hex digits. Note that `.lower().strip()` acts on the whole joined
string, not on the individual fields. -/
def generate_job_id (portal company role location : String) : String :=
  sha256hex16 (stripStr (lowerStr (portal ++ ":" ++ company ++ ":" ++ role ++ ":" ++ location)))

/-- The identity `insert_job` uses: `job.get("job_id") or generate_job_id(...)`
(an absent or empty `job_id` key falls back to the generated hash, with
`job.get("location", "")` supplying the location). -/
def effective_job_id (job : Job) : String :=
  match job.job_id with
  | some s =>
    if s = "" then generate_job_id job.portal job.company job.role job.location else s
  | none => generate_job_id job.portal job.company job.role job.location

/-- `database.job_exists`: is a row with this `job_id` in the store? -/
def job_exists (store : List Row) (jid : String) : Bool :=
  store.any (fun r => r.job_id == jid)

/-- Legal-suffix noise words removed from company names. -/
def legalSuffixTokens : List String :=
  ["pvt", "ltd", "limited", "inc", "llc", "llp", "corp", "corporation",
   "co", "plc", "gmbh", "private"]

/-- Modelled from the spec: `scrapers._normalize_company_name` is imported by
`database.find_similar_job` but absent from `src/scrapers.py`; the spec
describes it as computing "a normalized company name (case-folded, punctuation
and legal-suffix noise stripped)". Here: lower-case, replace punctuation by
spaces, drop legal-suffix tokens, re-join the remaining words. -/
def _normalize_company_name (s : String) : String :=
  joinSp ((tokenize s).filter (fun t => !(legalSuffixTokens.contains t)))

/-- Common role-title abbreviations expanded before token comparison. -/
def roleAbbrev (t : String) : String :=
  if t = "sr" then "senior"
  else if t = "jr" then "junior"
  else if t = "mgr" then "manager"
  else t

/-- Modelled from the spec: `scrapers._fuzzy_role_match` is imported by
`database.find_similar_job` but absent from `src/scrapers.py`; the spec
describes "a fuzzy role-title comparator (token-overlap or edit-distance
threshold) tuned to catch the same posting worded differently across sources",
with `"Senior Product Manager"` and `"Sr. Product Manager"` required to match.
Here: token overlap after lower-casing, punctuation removal and abbreviation
expansion, matching when at least 60 percent of the smaller token set is
shared. -/
def _fuzzy_role_match (a b : String) : Bool :=
  let ta := ((tokenize a).map roleAbbrev).dedup
  let tb := ((tokenize b).map roleAbbrev).dedup
  !ta.isEmpty && !tb.isEmpty &&
    decide (3 * min ta.length tb.length ≤ 5 * (ta.filter (fun t => tb.contains t)).length)

/-- `database.find_similar_job`: scan the 2000 most recent rows for one whose
normalized company equals the incoming record's and whose role fuzzy-matches
it, returning that row's `job_id`. The store list is ordered by `date_found`
descending, so `ORDER BY date_found DESC LIMIT 2000` is `List.take 2000`.
The `location` argument is accepted and ignored, as in the source. -/
def find_similar_job (store : List Row) (company role _location : String) : Option String :=
  ((store.take 2000).find? (fun r =>
    (_normalize_company_name r.company == _normalize_company_name company) &&
    _fuzzy_role_match role r.role)).map Row.job_id

/-- `database._CITY_PATTERNS`: canonical city name and the substrings that
identify it, in source (insertion) order. -/
def cityPatterns : List (String × List String) :=
  [("Pune", ["pune", "hinjewadi", "kharadi", "hadapsar", "baner", "wakad", "magarpatta"]),
   ("Mumbai", ["mumbai", "navi mumbai", "thane", "andheri", "bandra", "powai", "goregaon",
               "malad", "worli", "lower parel", "bkc", "airoli", "vashi"]),
   ("Bengaluru", ["bengaluru", "bangalore", "whitefield", "koramangala", "indiranagar",
                  "electronic city", "marathahalli", "sarjapur", "bellandur", "hsr layout"]),
   ("Delhi / NCR", ["delhi", "noida", "gurgaon", "gurugram", "ghaziabad", "greater noida",
                    "faridabad", "manesar", "dwarka", "connaught place", "aerocity"]),
   ("Hyderabad", ["hyderabad", "secunderabad", "hitec city", "hitech city", "gachibowli",
                  "madhapur", "kondapur", "banjara hills"]),
   ("Chennai", ["chennai", "sholinganallur", "omr", "porur", "guindy", "tidel park"]),
   ("Kolkata", ["kolkata", "salt lake", "sector v", "rajarhat", "new town"]),
   ("Ahmedabad", ["ahmedabad", "gandhinagar", "gift city"]),
   ("Jaipur", ["jaipur"]),
   ("Chandigarh", ["chandigarh", "mohali", "panchkula"]),
   ("Kochi", ["kochi", "cochin", "infopark"]),
   ("Indore", ["indore"]),
   ("Coimbatore", ["coimbatore"]),
   ("Thiruvananthapuram", ["thiruvananthapuram", "trivandrum", "technopark"]),
   ("Singapore", ["singapore"]),
   ("Dubai / UAE", ["dubai", "abu dhabi", "uae", "united arab emirates"]),
   ("London", ["london", "uk", "united kingdom"]),
   ("US - Remote", ["united states", "usa"]),
   ("Remote", ["remote", "work from home", "wfh", "anywhere"]),
   ("India", ["india"])]

/-- `database.normalize_location`: first canonical city whose pattern occurs in
the lower-cased raw location; the raw string when none matches; `""` for a
falsy input. -/
def normalize_location (raw_location : String) : String :=
  if raw_location = "" then ""
  else
    let rl := lowerStr raw_location
    match cityPatterns.find? (fun cp => cp.2.any (fun pat => strContains rl pat)) with
    | some cp => cp.1
    | none => raw_location

/-- The row `insert_job` INSERTs for an admitted job: the computed identity
plus the job's fields, with the location normalized at insert time
(`normalize_location(raw) if raw_location else raw_location`). -/
def storedRow (job : Job) : Row :=
  { job_id := effective_job_id job
    portal := job.portal
    company := job.company
    role := job.role
    salary := job.salary
    salary_currency := job.salary_currency
    location := if job.location = "" then job.location else normalize_location job.location
    job_description := job.job_description
    apply_url := job.apply_url
    date_posted := job.date_posted }

/-- `database.insert_job`, the Persistent Dedup Gate: reject when the exact
identity already exists; otherwise reject when `find_similar_job` returns a
(truthy) different id; otherwise persist. Returns the Python return value and
the store after the call (new rows are most recent, hence consed at the head).
The `sqlite3.IntegrityError` branch is unreachable in this sequential model
since `job_exists` was just checked. -/
def insert_job (store : List Row) (job : Job) : Bool × List Row :=
  let jid := effective_job_id job
  if job_exists store jid then (false, store)
  else
    match find_similar_job store job.company job.role job.location with
    | some sid =>
      if sid ≠ "" ∧ sid ≠ jid then (false, store) else (true, storedRow job :: store)
    | none => (true, storedRow job :: store)

/-! ## In-batch deduplication (`scrapers.deduplicate_jobs`) -/

/-- The in-batch dedup key:
`(company.lower().strip(), role.lower().strip(), (location or "").lower().strip())`. -/
def jobKey (j : Job) : String × String × String :=
  (stripStr (lowerStr j.company), stripStr (lowerStr j.role), stripStr (lowerStr j.location))

/-- The loop of `deduplicate_jobs`: `seen` is the set of keys already kept. -/
def dedupGo (seen : List (String × String × String)) : List Job → List Job
  | [] => []
  | j :: rest =>
    if jobKey j ∈ seen then dedupGo seen rest
    else j :: dedupGo (jobKey j :: seen) rest

/-- `scrapers.deduplicate_jobs`: keep the first occurrence of each key. -/
def deduplicate_jobs (jobs : List Job) : List Job := dedupGo [] jobs

/-! ## Response cache and fetch primitive (`scrapers.get_cached` / `fetch_url`)

The cache is keyed by the MD5 of the URL, so distinct URLs use distinct files;
the model looks at the single file belonging to the URL being fetched:
`entry` is that file (`none` when it does not exist), `mtime` its
`os.path.getmtime`, `now` the value of `time.time()` during the call. The
network is a function from the attempt number (1-based) to the response body,
`none` standing for a `requests.RequestException` (timeout, connection error,
or a non-2xx status via `raise_for_status`). `jitter` gives the value of
`random.uniform(0, 1)` drawn before the sleep that follows a failed attempt.
Only the plain-requests path (`use_selenium=False`) is modelled. -/

/-- A cache file: write timestamp plus stored body. -/
structure CacheEntry where
  mtime : ℚ
  body : String
deriving DecidableEq

/-- `scrapers.get_cached`: the body if the file exists and
`time.time() - getmtime(path) < expiry_hours * 3600`, else a miss. -/
def get_cached (entry : Option CacheEntry) (now : ℚ) (expiry_hours : ℚ) : Option String :=
  match entry with
  | some e => if now - e.mtime < expiry_hours * 3600 then some e.body else none
  | none => none

/-- The retry loop of `fetch_url` from attempt number `attempt` with
`fuel = retries - attempt + 1` attempts left. Returns the result, the cache
file after the loop (a success overwrites it), and the list of back-off sleeps
taken (`2 ** attempt + random.uniform(0, 1)` after each failed non-final
attempt). -/
def fetchAttempts (net : Nat → Option String) (jitter : Nat → ℚ) (now : ℚ)
    (entry : Option CacheEntry) : Nat → Nat → Option String × Option CacheEntry × List ℚ
  | _, 0 => (none, entry, [])
  | attempt, fuel + 1 =>
    match net attempt with
    | some html => (some html, some ⟨now, html⟩, [])
    | none =>
      if fuel = 0 then (none, entry, [])
      else
        let r := fetchAttempts net jitter now entry (attempt + 1) fuel
        (r.1, r.2.1, ((2 : ℚ) ^ attempt + jitter attempt) :: r.2.2)

/-- `scrapers.fetch_url` (plain-requests path): serve from cache on a hit,
otherwise run up to `retries` attempts (default 3) with exponential back-off,
returning `none` — and leaving the cache file untouched — only when every
attempt failed. -/
def fetch_url (entry : Option CacheEntry) (net : Nat → Option String) (jitter : Nat → ℚ)
    (now : ℚ) (expiry_hours : ℚ) (retries : Nat := 3) :
    Option String × Option CacheEntry × List ℚ :=
  match get_cached entry now expiry_hours with
  | some cached => (some cached, entry, [])
  | none => fetchAttempts net jitter now entry 1 retries

/-! ## Acquisition orchestrator (`scrapers.scrape_all_portals`)

Each enabled portal's scraper runs in its own thread-pool task; a task's
result depends only on its own scraper call, so the completion-order
nondeterminism of `as_completed` does not affect the content of the returned
outcome map, and the model processes tasks in submission order. Wall-clock
`elapsed` values are real time and are not modelled. A scraper is a function
from the portal name to `.ok jobs` or, for an uncaught exception inside the
task, `.error message`. -/

/-- A per-portal outcome entry (`{"status": ..., "count": ...}`). -/
structure PortalOutcome where
  status : String
  count : Nat
deriving DecidableEq, Repr

/-- The keys of `scrapers.SCRAPER_MAP`. -/
def SCRAPER_NAMES : List String :=
  ["linkedin", "indeed", "naukri", "hiringcafe", "angellist", "iimjobs"]

/-- The enabled-portal list: portals with a truthy `enabled` flag that have a
registered scraper, in configuration order. -/
def enabled_portals (portals : List (String × Bool)) : List String :=
  (portals.filter (fun p => p.2 && SCRAPER_NAMES.contains p.1)).map Prod.fst

/-- `scrape_all_portals.run_scraper`: run one portal's scraper, converting an
uncaught exception to a `failed` outcome with no records. -/
def run_scraper (scrapers : String → Except String (List Job)) (name : String) :
    String × List Job × String :=
  match scrapers name with
  | .ok jobs => (name, jobs, "success")
  | .error _ => (name, [], "failed")

/-- The outcome entry a portal's scraper result produces. -/
def outcomeOf (r : Except String (List Job)) : PortalOutcome :=
  match r with
  | .ok jobs => { status := "success", count := jobs.length }
  | .error _ => { status := "failed", count := 0 }

/-- `scrapers.scrape_all_portals`: run every enabled portal, build the
per-portal outcome map, concatenate all records and deduplicate them. -/
def scrape_all_portals (scrapers : String → Except String (List Job))
    (portals : List (String × Bool)) : List Job × List (String × PortalOutcome) :=
  let results := (enabled_portals portals).map (run_scraper scrapers)
  let portal_results := results.map (fun r =>
    (r.1, { status := r.2.2, count := r.2.1.length : PortalOutcome }))
  let all_jobs := results.foldl (fun acc r => acc ++ r.2.1) []
  (deduplicate_jobs all_jobs, portal_results)

/-! ## Source extractors

A "card" is the data the per-card `try` block of an extractor reads from one
markup fragment: each selected element is an `Option String` (`none` when the
selector matched nothing, `some t` when it matched an element whose stripped
text — or the relevant attribute — is `t`). A card whose processing raises is
an `.error` input; the per-card `except` clause skips it. -/

/-- An exception raised while processing one card or one JSON item
(the kinds the per-item handlers catch or miss). -/
inductive PyErr where
  | typeErr : PyErr
  | keyErr : PyErr
  | attrErr : PyErr
deriving DecidableEq, Repr

/-- Python truthiness of a `str | None` value. -/
def optTruthy (o : Option String) : Bool :=
  match o with
  | some s => !(s == "")
  | none => false

/-- The element data of one LinkedIn search card. `date_attr` is
`date_el.get("datetime", "")` when a `time` element is present. -/
structure LinkedInCard where
  title_el : Option String
  company_el : Option String
  location_el : Option String
  link_href : Option String
  date_attr : Option String
deriving DecidableEq, Repr

/-- The record `scrape_linkedin` appends for one admitted card; `pageLoc` is
the location argument of the enclosing query. -/
def linkedinCardJob (pageLoc : String) (c : LinkedInCard) : Job :=
  let role := c.title_el.getD ""
  let company := c.company_el.getD ""
  { job_id := none
    portal := "LinkedIn"
    company := company
    role := role
    salary := none
    salary_currency := "INR"
    location := c.location_el.getD pageLoc
    job_description := ""
    apply_url :=
      if optTruthy c.link_href then c.link_href.getD ""
      else "https://www.linkedin.com/jobs/search/?keywords=" ++
        quote_plus (role ++ " " ++ company)
    date_posted := some (c.date_attr.getD "") }

/-- The per-card loop of `scrape_linkedin` for one fetched page: a raising
card is skipped, a card is emitted only under `if role and company`. -/
def linkedin_parse_cards (pageLoc : String) : List (Except PyErr LinkedInCard) → List Job
  | [] => []
  | .error _ :: rest => linkedin_parse_cards pageLoc rest
  | .ok c :: rest =>
    if optTruthy c.title_el && optTruthy c.company_el then
      linkedinCardJob pageLoc c :: linkedin_parse_cards pageLoc rest
    else linkedin_parse_cards pageLoc rest

/-- The element data of one HiringCafe / Wellfound markup card. -/
structure MarkupCard where
  title_el : Option String
  company_el : Option String
  location_el : Option String
  salary_el : Option String
  link_href : Option String
deriving DecidableEq, Repr

/-- The `apply_url` computation shared by `scrape_hiringcafe` and
`scrape_angellist`: a relative href is prefixed with the site base, a missing
or empty one falls back to the search-page URL. -/
def cardApplyUrl (base_url fallback_url : String) (link : Option String) : String :=
  let au : Option String :=
    match link with
    | some u => if u ≠ "" && !(leadsWith u "http") then some (base_url ++ u) else some u
    | none => none
  if optTruthy au then au.getD "" else fallback_url

/-- The record `scrape_hiringcafe` appends for one admitted card. The emitted
dictionary has no `date_posted` key. -/
def hiringcafeCardJob (base_url search_url : String) (c : MarkupCard) : Job :=
  { job_id := none
    portal := "HiringCafe"
    company := c.company_el.getD ""
    role := c.title_el.getD ""
    salary := c.salary_el
    salary_currency := "INR"
    location := c.location_el.getD "India"
    job_description := ""
    apply_url := cardApplyUrl base_url search_url c.link_href
    date_posted := none }

/-- The per-card loop of `scrape_hiringcafe` for one fetched page. -/
def hiringcafe_parse_cards (base_url search_url : String) :
    List (Except PyErr MarkupCard) → List Job
  | [] => []
  | .error _ :: rest => hiringcafe_parse_cards base_url search_url rest
  | .ok c :: rest =>
    if optTruthy c.title_el && optTruthy c.company_el then
      hiringcafeCardJob base_url search_url c ::
        hiringcafe_parse_cards base_url search_url rest
    else hiringcafe_parse_cards base_url search_url rest

/-- The record `scrape_angellist` appends for one admitted card; `pageLoc` is
the location argument of the enclosing query. The emitted dictionary has no
`date_posted` key. -/
def angellistCardJob (pageLoc search_url : String) (c : MarkupCard) : Job :=
  { job_id := none
    portal := "Wellfound"
    company := c.company_el.getD ""
    role := c.title_el.getD ""
    salary := c.salary_el
    salary_currency := "USD"
    location := c.location_el.getD pageLoc
    job_description := ""
    apply_url := cardApplyUrl "https://wellfound.com" search_url c.link_href
    date_posted := none }

/-- The per-card loop of `scrape_angellist` for one fetched page. -/
def angellist_parse_cards (pageLoc search_url : String) :
    List (Except PyErr MarkupCard) → List Job
  | [] => []
  | .error _ :: rest => angellist_parse_cards pageLoc search_url rest
  | .ok c :: rest =>
    if optTruthy c.title_el && optTruthy c.company_el then
      angellistCardJob pageLoc search_url c ::
        angellist_parse_cards pageLoc search_url rest
    else angellist_parse_cards pageLoc search_url rest

/-! ### Indeed embedded-JSON items (`scrapers._parse_indeed_initial_data`)

The JSON-locating preamble (finding `window._initialData` and the mosaic
provider blob, deduplicating by jobkey) is abstracted into the resulting
`all_results` item list; each item is modelled after the `.get` chains of the
final loop have been resolved: `title`, `company`, `loc`, `key`, `salaryText`
and `snippet` are the resulting strings (empty when every fallback was empty
or missing), and the three date fields are the numeric epoch values when
present. An item whose dictionary accesses raise one of the caught
`(TypeError, KeyError, AttributeError)` is an `.error` input. -/

/-- One resolved entry of `all_results`. -/
structure IndeedItem where
  title : String
  company : String
  loc : String
  datePublished : Option Nat
  pubDate : Option Nat
  createDate : Option Nat
  formattedRelativeTime : String
  key : String
  salaryText : String
  snippet : String
deriving DecidableEq, Repr

/-- The `for date_field in (...)` scan: the first present numeric field
greater than `1_000_000_000`. -/
def firstEpochField : List (Option Nat) → Option Nat
  | [] => none
  | some v :: rest => if v > 1000000000 then some v else firstEpochField rest
  | none :: rest => firstEpochField rest

/-- The `date_posted` computation for one Indeed item: an epoch field (divided
by 1000 when it is in milliseconds) formatted as a date, else the relative
date text. An `OverflowError` from the date arithmetic is not among the caught
exception types and escapes the per-item handler. -/
def indeed_date (it : IndeedItem) (today : Int) : Except Unit String :=
  match firstEpochField [it.datePublished, it.pubDate, it.createDate] with
  | some v =>
    let ts : ℚ := if v > 1000000000000 then (v : ℚ) / 1000 else (v : ℚ)
    tsToDateStr ts
  | none => _parse_relative_date it.formattedRelativeTime today

/-- The continuation state of the `re.sub(r"<[^>]+>", " ", ...)` scan after an
opening `<`: the remainder after the closing `>` when the pattern matches. -/
def tagClose : List Char → Option (List Char)
  | [] => none
  | '>' :: rest => some rest
  | _ :: rest => tagClose rest

/-- `re.sub(r"<[^>]+>", " ", s)`: replace each non-empty angle-bracket tag by
one space (fuel-driven; `fuel = length` suffices since every step consumes at
least one character). -/
def stripTagsGo : Nat → List Char → List Char
  | 0, l => l
  | _ + 1, [] => []
  | fuel + 1, c :: rest =>
    if c = '<' then
      match rest with
      | '>' :: _ => c :: stripTagsGo fuel rest
      | _ :: more =>
        match tagClose more with
        | some rem => ' ' :: stripTagsGo fuel rem
        | none => c :: stripTagsGo fuel rest
      | [] => [c]
    else c :: stripTagsGo fuel rest

/-- The snippet clean-up: strip HTML tags (and surrounding whitespace) only
when a `<` occurs in the snippet. -/
def indeedSnippet (s : String) : String :=
  if strContains s "<" then stripStr (String.mk (stripTagsGo s.data.length s.data)) else s

/-- The record `_parse_indeed_initial_data` appends for one admitted item,
given its computed `date_posted` string. -/
def indeedItemJob (it : IndeedItem) (dp : String) : Job :=
  { job_id := none
    portal := "Indeed"
    company := it.company
    role := it.title
    salary := if it.salaryText ≠ "" then some it.salaryText else none
    salary_currency := "INR"
    location := it.loc
    job_description := String.mk ((indeedSnippet it.snippet).data.take 500)
    apply_url := if it.key ≠ "" then "https://in.indeed.com/viewjob?jk=" ++ it.key else ""
    date_posted := some dp }

/-- The final loop of `_parse_indeed_initial_data` over `all_results`: items
raising a caught exception type are skipped, an item is emitted only under
`if title and company`, and an uncaught `OverflowError` from the date
computation aborts the whole parse. -/
def _parse_indeed_items (today : Int) : List (Except PyErr IndeedItem) → Except Unit (List Job)
  | [] => .ok []
  | .error _ :: rest => _parse_indeed_items today rest
  | .ok it :: rest =>
    match indeed_date it today with
    | .error e => .error e
    | .ok dp =>
      match _parse_indeed_items today rest with
      | .error e => .error e
      | .ok tail =>
        if it.title ≠ "" && it.company ≠ "" then .ok (indeedItemJob it dp :: tail)
        else .ok tail

/-! ## Theorems -/

/-! ### C4: the In-Batch Deduplicator keeps exactly first occurrences -/

theorem dedupGo_sublist (seen : List (String × String × String)) (jobs : List Job) :
    (dedupGo seen jobs).Sublist jobs := by
  induction jobs generalizing seen with
  | nil => simp [dedupGo]
  | cons j rest ih =>
    by_cases h : jobKey j ∈ seen
    · rw [dedupGo, if_pos h]
      exact (ih seen).cons j
    · rw [dedupGo, if_neg h]
      exact (ih (jobKey j :: seen)).cons₂ j

theorem dedupGo_key_not_seen (seen : List (String × String × String)) (jobs : List Job)
    (j : Job) (hj : j ∈ dedupGo seen jobs) : jobKey j ∉ seen := by
  induction jobs generalizing seen with
  | nil => simp [dedupGo] at hj
  | cons a rest ih =>
    by_cases h : jobKey a ∈ seen
    · rw [dedupGo, if_pos h] at hj
      exact ih seen hj
    · rw [dedupGo, if_neg h] at hj
      rcases List.mem_cons.mp hj with rfl | hmem
      · exact h
      · have := ih (jobKey a :: seen) hmem
        exact fun hs => this (List.mem_cons_of_mem _ hs)

theorem dedupGo_keys_nodup (seen : List (String × String × String)) (jobs : List Job) :
    ((dedupGo seen jobs).map jobKey).Nodup := by
  induction jobs generalizing seen with
  | nil => simp [dedupGo]
  | cons a rest ih =>
    by_cases h : jobKey a ∈ seen
    · rw [dedupGo, if_pos h]
      exact ih seen
    · rw [dedupGo, if_neg h]
      refine List.nodup_cons.mpr ⟨?_, ih (jobKey a :: seen)⟩
      intro hmem
      rcases List.mem_map.mp hmem with ⟨u, hu, hku⟩
      exact dedupGo_key_not_seen _ _ _ hu (hku ▸ List.mem_cons_self _ _)

theorem dedupGo_covers (seen : List (String × String × String)) (jobs : List Job)
    (j : Job) (hj : j ∈ jobs) :
    jobKey j ∈ seen ∨ ∃ u ∈ dedupGo seen jobs, jobKey u = jobKey j := by
  induction jobs generalizing seen with
  | nil => cases hj
  | cons a rest ih =>
    by_cases h : jobKey a ∈ seen
    · rw [dedupGo, if_pos h]
      rcases List.mem_cons.mp hj with heq | hmem
      · rw [heq]; exact Or.inl h
      · exact ih seen hmem
    · rw [dedupGo, if_neg h]
      rcases List.mem_cons.mp hj with heq | hmem
      · exact Or.inr ⟨a, List.mem_cons_self _ _, congrArg jobKey heq.symm⟩
      · rcases ih (jobKey a :: seen) hmem with hseen | ⟨u, hu, hku⟩
        · rcases List.mem_cons.mp hseen with heq | hs
          · exact Or.inr ⟨a, List.mem_cons_self _ _, heq.symm⟩
          · exact Or.inl hs
        · exact Or.inr ⟨u, List.mem_cons_of_mem _ hu, hku⟩

theorem dedupGo_find? (seen : List (String × String × String)) (jobs : List Job)
    (k : String × String × String) (hk : k ∉ seen) :
    (dedupGo seen jobs).find? (fun u => decide (jobKey u = k))
      = jobs.find? (fun u => decide (jobKey u = k)) := by
  induction jobs generalizing seen with
  | nil => simp [dedupGo]
  | cons a rest ih =>
    by_cases h : jobKey a ∈ seen
    · have hne : ¬ jobKey a = k := fun he => hk (he ▸ h)
      rw [dedupGo, if_pos h, List.find?_cons_of_neg _ (by simpa using hne)]
      exact ih seen hk
    · rw [dedupGo, if_neg h]
      by_cases hak : jobKey a = k
      · rw [List.find?_cons_of_pos _ (by simpa using hak),
          List.find?_cons_of_pos _ (by simpa using hak)]
      · rw [List.find?_cons_of_neg _ (by simpa using hak),
          List.find?_cons_of_neg _ (by simpa using hak)]
        exact ih (jobKey a :: seen) (by
          intro hmem
          rcases List.mem_cons.mp hmem with heq | hs
          · exact hak heq.symm
          · exact hk hs)

/-- C4: `deduplicate_jobs` keys each record by
`(company.lower().strip(), role.lower().strip(), location.lower().strip())`
and keeps exactly the first occurrence, in input order, of each key: the
output is a subsequence of the input, its keys are pairwise distinct (so every
later record with an already-seen key is dropped), every input key is still
represented (so records with distinct keys are all retained), and for every
key the retained record is precisely the first input record with that key. -/
theorem deduplicate_jobs_first_occurrence (jobs : List Job) :
    (deduplicate_jobs jobs).Sublist jobs
    ∧ ((deduplicate_jobs jobs).map jobKey).Nodup
    ∧ (∀ j ∈ jobs, (deduplicate_jobs jobs).any (fun u => decide (jobKey u = jobKey j)) = true)
    ∧ ∀ k, (deduplicate_jobs jobs).find? (fun u => decide (jobKey u = k))
        = jobs.find? (fun u => decide (jobKey u = k)) := by
  refine ⟨dedupGo_sublist [] jobs, dedupGo_keys_nodup [] jobs, ?_, ?_⟩
  · intro j hj
    rcases dedupGo_covers [] jobs j hj with hseen | ⟨u, hu, hku⟩
    · cases hseen
    · exact List.any_eq_true.mpr ⟨u, hu, by simpa using hku⟩
  · intro k
    exact dedupGo_find? [] jobs k (by simp)

/-- A batch with a duplicated `(company, role, location)` key (up to case and
surrounding whitespace) for the first and third record. -/
def c4a : Job :=
  { job_id := none, portal := "LinkedIn", company := "Acme Bank", role := "Product Manager",
    salary := none, salary_currency := "INR", location := "Bengaluru",
    job_description := "", apply_url := "a", date_posted := some "2026-10-10" }

def c4b : Job :=
  { job_id := none, portal := "Indeed", company := "Beta Corp", role := "Data Analyst",
    salary := none, salary_currency := "INR", location := "Pune",
    job_description := "", apply_url := "b", date_posted := some "" }

def c4a2 : Job :=
  { job_id := none, portal := "Naukri", company := "  ACME BANK ", role := "product manager",
    salary := some "20L", salary_currency := "INR", location := "bengaluru",
    job_description := "dup", apply_url := "c", date_posted := none }

theorem deduplicate_jobs_first_occurrence_witness :
    (deduplicate_jobs [c4a, c4b, c4a2]).Sublist [c4a, c4b, c4a2]
    ∧ ((deduplicate_jobs [c4a, c4b, c4a2]).map jobKey).Nodup
    ∧ (deduplicate_jobs [c4a, c4b, c4a2]).any
        (fun u => decide (jobKey u = jobKey c4a2)) = true
    ∧ (deduplicate_jobs [c4a, c4b, c4a2]).find? (fun u => decide (jobKey u = jobKey c4a2))
        = [c4a, c4b, c4a2].find? (fun u => decide (jobKey u = jobKey c4a2)) :=
  ⟨(deduplicate_jobs_first_occurrence [c4a, c4b, c4a2]).1,
   (deduplicate_jobs_first_occurrence [c4a, c4b, c4a2]).2.1,
   (deduplicate_jobs_first_occurrence [c4a, c4b, c4a2]).2.2.1 c4a2 (by decide),
   (deduplicate_jobs_first_occurrence [c4a, c4b, c4a2]).2.2.2 (jobKey c4a2)⟩

/-! ### C2: the Persistent Dedup Gate is idempotent -/

theorem job_exists_cons_self (store : List Row) (job : Job) :
    job_exists (storedRow job :: store) (effective_job_id job) = true := by
  simp [job_exists, storedRow]

/-- C2: submitting the same job record to `insert_job` twice in succession —
from any store that does not yet contain its identity hash nor a fuzzy match
for it — admits it on the first call (returning `True` and persisting the row
with its computed identity) and rejects it on the second (returning `False`
because a row with the same identity hash now exists), leaving exactly one
stored row with that identity. -/
theorem insert_job_idempotent (store : List Row) (job : Job)
    (h0 : job_exists store (effective_job_id job) = false)
    (h1 : find_similar_job store job.company job.role job.location = none) :
    insert_job store job = (true, storedRow job :: store)
    ∧ insert_job (storedRow job :: store) job = (false, storedRow job :: store)
    ∧ (storedRow job :: store).countP (fun r => r.job_id == effective_job_id job) = 1 := by
  refine ⟨?_, ?_, ?_⟩
  · rw [insert_job]
    rw [h0]
    simp [h1]
  · rw [insert_job]
    rw [job_exists_cons_self]
    simp
  · rw [List.countP_cons]
    have hz : store.countP (fun r => r.job_id == effective_job_id job) = 0 := by
      refine List.countP_eq_zero.mpr ?_
      intro r hr hcon
      have : store.any (fun r => r.job_id == effective_job_id job) = true :=
        List.any_eq_true.mpr ⟨r, hr, hcon⟩
      rw [job_exists] at h0
      rw [h0] at this
      exact Bool.false_ne_true this
    rw [hz]
    simp [storedRow]

def c2job : Job :=
  { job_id := none, portal := "LinkedIn", company := "Acme Bank", role := "Product Manager",
    salary := none, salary_currency := "INR", location := "Bengaluru",
    job_description := "d", apply_url := "https://x", date_posted := some "2026-10-10" }

theorem insert_job_idempotent_witness :
    job_exists [] (effective_job_id c2job) = false
    ∧ find_similar_job [] c2job.company c2job.role c2job.location = none
    ∧ insert_job [] c2job = (true, [storedRow c2job])
    ∧ insert_job [storedRow c2job] c2job = (false, [storedRow c2job])
    ∧ [storedRow c2job].countP (fun r => r.job_id == effective_job_id c2job) = 1 := by
  have h := insert_job_idempotent [] c2job (by rfl) (by rfl)
  exact ⟨by rfl, by rfl, h.1, h.2.1, h.2.2⟩

/-! ### C1: fuzzy cross-portal duplicates are rejected by the gate -/

/-- C1: a record whose company normalizes equal to that of a row within the
2000-most-recent window of the store, and whose role fuzzy-matches that row's
role, is rejected by `insert_job` — the call returns `False` and leaves the
store unchanged, so only one of the two records is admitted. (Stored rows have
non-empty identities, which `insert_job` itself guarantees for every row it
writes.) -/
theorem insert_job_fuzzy_rejects (store : List Row) (job : Job) (r : Row)
    (hids : ∀ q ∈ store, q.job_id ≠ "")
    (hr : r ∈ store.take 2000)
    (hc : _normalize_company_name r.company = _normalize_company_name job.company)
    (hf : _fuzzy_role_match job.role r.role = true) :
    insert_job store job = (false, store) := by
  by_cases hex : job_exists store (effective_job_id job) = true
  · rw [insert_job, hex]
    simp
  · have hexf : job_exists store (effective_job_id job) = false :=
      Bool.not_eq_true _ ▸ Bool.eq_false_iff.mpr hex
    have hpred : (fun q => (_normalize_company_name q.company ==
        _normalize_company_name job.company) && _fuzzy_role_match job.role q.role) r = true := by
      simp only [hc, hf, Bool.and_true, beq_self_eq_true]
    obtain ⟨q, hq⟩ : ∃ q, (store.take 2000).find? (fun q =>
        (_normalize_company_name q.company == _normalize_company_name job.company) &&
        _fuzzy_role_match job.role q.role) = some q := by
      cases hfind : (store.take 2000).find? (fun q =>
          (_normalize_company_name q.company == _normalize_company_name job.company) &&
          _fuzzy_role_match job.role q.role) with
      | none =>
        exact absurd hpred (by simpa using List.find?_eq_none.mp hfind r hr)
      | some q => exact ⟨q, rfl⟩
    have hqmem : q ∈ store := List.take_subset _ _ (List.mem_of_find?_eq_some hq)
    have hqid : q.job_id ≠ "" := hids q hqmem
    have hqjid : q.job_id ≠ effective_job_id job := by
      intro he
      have : store.any (fun w => w.job_id == effective_job_id job) = true :=
        List.any_eq_true.mpr ⟨q, hqmem, by simp [he]⟩
      rw [job_exists] at hexf
      rw [hexf] at this
      exact Bool.false_ne_true this
    rw [insert_job, hexf]
    simp only [Bool.false_eq_true, if_false, find_similar_job, hq, Option.map_some']
    rw [if_pos ⟨hqid, hqjid⟩]

def c1row : Row :=
  { job_id := "aaaa000011112222", portal := "Indeed", company := "ACME Bank Pvt Ltd",
    role := "Senior Product Manager", salary := none, salary_currency := "INR",
    location := "Bengaluru", job_description := "", apply_url := "https://y",
    date_posted := none }

def c1job : Job :=
  { job_id := none, portal := "LinkedIn", company := "Acme Bank", role := "Sr. Product Manager",
    salary := none, salary_currency := "INR", location := "Bengaluru",
    job_description := "", apply_url := "https://x", date_posted := some "2026-10-10" }

set_option maxRecDepth 10000 in
theorem insert_job_fuzzy_rejects_witness :
    (∀ q ∈ [c1row], q.job_id ≠ "")
    ∧ c1row ∈ [c1row].take 2000
    ∧ _normalize_company_name c1row.company = _normalize_company_name c1job.company
    ∧ _fuzzy_role_match c1job.role c1row.role = true
    ∧ insert_job [c1row] c1job = (false, [c1row]) :=
  ⟨by decide, by decide, by decide, by decide,
   insert_job_fuzzy_rejects [c1row] c1job c1row (by decide) (by decide) (by decide) (by decide)⟩

/-! ### C3: per-source failures are isolated by the orchestrator -/

theorem lookup_pair_map (f : String → PortalOutcome) (l : List String) (n : String)
    (hn : n ∈ l) : (l.map (fun m => (m, f m))).lookup n = some (f n) := by
  induction l with
  | nil => cases hn
  | cons m rest ih =>
    by_cases h : n = m
    · rw [h]
      simp [List.lookup]
    · have hbeq : (n == m) = false := by simpa using h
      simp only [List.map_cons, List.lookup, hbeq]
      exact ih (List.mem_of_ne_of_mem h hn)

theorem portal_results_eq (scrapers : String → Except String (List Job))
    (portals : List (String × Bool)) :
    (scrape_all_portals scrapers portals).2
      = (enabled_portals portals).map (fun n => (n, outcomeOf (scrapers n))) := by
  rw [scrape_all_portals]
  rw [List.map_map]
  apply List.map_congr_left
  intro n _
  cases hn : scrapers n <;> simp [run_scraper, outcomeOf, hn]

/-- C3: if an enabled source's scraper task raises, `scrape_all_portals`
records a `failed` outcome with `count = 0` for it in the returned per-source
map — the exception does not propagate (the orchestrator is a total function
into the result pair) — and every enabled source's entry, this one included,
is present in the map and determined solely by that source's own scraper
result. -/
theorem scrape_all_portals_isolates_failures
    (scrapers : String → Except String (List Job)) (portals : List (String × Bool))
    (name : String) (e : String)
    (hmem : name ∈ enabled_portals portals)
    (herr : scrapers name = .error e) :
    (scrape_all_portals scrapers portals).2.lookup name
        = some { status := "failed", count := 0 }
    ∧ ∀ n ∈ enabled_portals portals,
        (scrape_all_portals scrapers portals).2.lookup n = some (outcomeOf (scrapers n)) := by
  constructor
  · rw [portal_results_eq, lookup_pair_map _ _ _ hmem, herr]
    rfl
  · intro n hn
    rw [portal_results_eq, lookup_pair_map _ _ _ hn]

def c3scrapers (n : String) : Except String (List Job) :=
  if n = "linkedin" then .error "boom" else .ok []

def c3portals : List (String × Bool) :=
  [("linkedin", true), ("indeed", true), ("naukri", false)]

theorem scrape_all_portals_isolates_failures_witness :
    "linkedin" ∈ enabled_portals c3portals
    ∧ c3scrapers "linkedin" = .error "boom"
    ∧ (scrape_all_portals c3scrapers c3portals).2.lookup "linkedin"
        = some { status := "failed", count := 0 }
    ∧ (scrape_all_portals c3scrapers c3portals).2.lookup "indeed"
        = some (outcomeOf (c3scrapers "indeed")) :=
  ⟨by decide, by rfl,
   (scrape_all_portals_isolates_failures c3scrapers c3portals "linkedin" "boom"
     (by decide) (by rfl)).1,
   (scrape_all_portals_isolates_failures c3scrapers c3portals "linkedin" "boom"
     (by decide) (by rfl)).2 "indeed" (by decide)⟩

/-! ### C5: the fetch primitive retries and fails only on exhaustion -/

theorem fetchAttempts_fst_success (net : Nat → Option String) (jitter : Nat → ℚ) (now : ℚ)
    (entry : Option CacheEntry) (attempt fuel : Nat) (body : String)
    (h : net attempt = some body) :
    (fetchAttempts net jitter now entry attempt (fuel + 1)).1 = some body := by
  simp [fetchAttempts, h]

theorem fetchAttempts_fst_step (net : Nat → Option String) (jitter : Nat → ℚ) (now : ℚ)
    (entry : Option CacheEntry) (attempt fuel : Nat)
    (h : net attempt = none) :
    (fetchAttempts net jitter now entry attempt (fuel + 1)).1
      = (fetchAttempts net jitter now entry (attempt + 1) fuel).1 := by
  by_cases hf : fuel = 0
  · subst hf
    simp [fetchAttempts, h]
  · obtain ⟨f, rfl⟩ := Nat.exists_eq_succ_of_ne_zero hf
    simp [fetchAttempts, h]

theorem fetchAttempts_none_iff (net : Nat → Option String) (jitter : Nat → ℚ) (now : ℚ)
    (entry : Option CacheEntry) (fuel : Nat) :
    ∀ attempt, (fetchAttempts net jitter now entry attempt fuel).1 = none
      ↔ ∀ k, attempt ≤ k → k < attempt + fuel → net k = none := by
  induction fuel with
  | zero =>
    intro attempt
    simp [fetchAttempts]
    intro k h1 h2
    omega
  | succ f ih =>
    intro attempt
    cases hnet : net attempt with
    | some html =>
      rw [fetchAttempts_fst_success net jitter now entry attempt f html hnet]
      simp only [reduceCtorEq, false_iff, not_forall]
      exact ⟨attempt, le_refl _, by omega, by simp [hnet]⟩
    | none =>
      rw [fetchAttempts_fst_step net jitter now entry attempt f hnet, ih (attempt + 1)]
      constructor
      · intro hall k hk1 hk2
        rcases Nat.eq_or_lt_of_le hk1 with heq | hlt
        · rw [heq] at hnet
          exact hnet
        · exact hall k hlt (by omega)
      · intro hall k hk1 hk2
        exact hall k (by omega) (by omega)

theorem fetchAttempts_first_success (net : Nat → Option String) (jitter : Nat → ℚ) (now : ℚ)
    (entry : Option CacheEntry) (fuel : Nat) :
    ∀ attempt k body, attempt ≤ k → k < attempt + fuel →
      (∀ j, attempt ≤ j → j < k → net j = none) → net k = some body →
      (fetchAttempts net jitter now entry attempt fuel).1 = some body := by
  induction fuel with
  | zero =>
    intro attempt k body h1 h2
    omega
  | succ f ih =>
    intro attempt k body h1 h2 hbefore hk
    rcases Nat.eq_or_lt_of_le h1 with heq | hlt
    · rw [← heq] at hk
      exact fetchAttempts_fst_success net jitter now entry attempt f body hk
    · have hnet : net attempt = none := hbefore attempt (le_refl _) hlt
      rw [fetchAttempts_fst_step net jitter now entry attempt f hnet]
      exact ih (attempt + 1) k body hlt (by omega) (fun j hj1 hj2 => hbefore j (by omega) hj2) hk

theorem fetchAttempts_sleeps_step (net : Nat → Option String) (jitter : Nat → ℚ) (now : ℚ)
    (entry : Option CacheEntry) (attempt fuel : Nat)
    (h : net attempt = none) (hf : fuel ≠ 0) :
    (fetchAttempts net jitter now entry attempt (fuel + 1)).2.2
      = ((2 : ℚ) ^ attempt + jitter attempt) ::
        (fetchAttempts net jitter now entry (attempt + 1) fuel).2.2 := by
  obtain ⟨g, rfl⟩ := Nat.exists_eq_succ_of_ne_zero hf
  simp [fetchAttempts, h]

theorem fetchAttempts_sleeps_all_fail (net : Nat → Option String) (jitter : Nat → ℚ) (now : ℚ)
    (entry : Option CacheEntry) (fuel : Nat) :
    ∀ attempt, (∀ k, attempt ≤ k → k < attempt + fuel → net k = none) →
      (fetchAttempts net jitter now entry attempt fuel).2.2
        = (List.range (fuel - 1)).map (fun i => (2 : ℚ) ^ (attempt + i) + jitter (attempt + i)) := by
  induction fuel with
  | zero =>
    intro attempt _
    simp [fetchAttempts]
  | succ f ih =>
    intro attempt hall
    have hnet : net attempt = none := hall attempt (le_refl _) (by omega)
    by_cases hf : f = 0
    · subst hf
      simp [fetchAttempts, hnet]
    · rw [fetchAttempts_sleeps_step net jitter now entry attempt f hnet hf,
        ih (attempt + 1) (fun k hk1 hk2 => hall k (by omega) (by omega))]
      obtain ⟨g, rfl⟩ := Nat.exists_eq_succ_of_ne_zero hf
      simp only [Nat.add_sub_cancel]
      rw [List.range_succ_eq_map, List.map_cons, List.map_map]
      congr 1
      rw [Nat.succ_sub_one]
      apply List.map_congr_left
      intro i _
      show (2 : ℚ) ^ (attempt + 1 + i) + jitter (attempt + 1 + i)
          = (2 : ℚ) ^ (attempt + (i + 1)) + jitter (attempt + (i + 1))
      have hia : attempt + 1 + i = attempt + (i + 1) := by omega
      rw [hia]

/-- C5: when the URL is not served from cache, `fetch_url` runs up to
`retries` attempts with an exponential-backoff-plus-jitter sleep after each
failed non-final attempt, and returns the failure signal `none` exactly when
every one of the `retries` attempts failed; in particular, whenever the first
success comes on attempt `k ≤ retries` (for example the third attempt with
`retries = 3`), the fetched body is returned. -/
theorem fetch_url_retries_until_success (entry : Option CacheEntry)
    (net : Nat → Option String) (jitter : Nat → ℚ) (now ttl : ℚ) (retries : Nat)
    (hmiss : get_cached entry now ttl = none) :
    ((fetch_url entry net jitter now ttl retries).1 = none
        ↔ ∀ k, 1 ≤ k → k ≤ retries → net k = none)
    ∧ (∀ k body, 1 ≤ k → k ≤ retries → (∀ j, 1 ≤ j → j < k → net j = none) →
        net k = some body →
        (fetch_url entry net jitter now ttl retries).1 = some body)
    ∧ ((∀ k, 1 ≤ k → k ≤ retries → net k = none) →
        (fetch_url entry net jitter now ttl retries).2.2
          = (List.range (retries - 1)).map (fun i => (2 : ℚ) ^ (1 + i) + jitter (1 + i))) := by
  have hfu : fetch_url entry net jitter now ttl retries
      = fetchAttempts net jitter now entry 1 retries := by
    rw [fetch_url, hmiss]
  refine ⟨?_, ?_, ?_⟩
  · rw [hfu, fetchAttempts_none_iff]
    constructor
    · intro hall k h1 h2
      exact hall k h1 (by omega)
    · intro hall k h1 h2
      exact hall k h1 (by omega)
  · intro k body h1 h2 hbefore hk
    rw [hfu]
    exact fetchAttempts_first_success net jitter now entry retries 1 k body h1 (by omega) hbefore hk
  · intro hall
    rw [hfu]
    exact fetchAttempts_sleeps_all_fail net jitter now entry retries 1
      (fun k hk1 hk2 => hall k hk1 (by omega))

def c5net (k : Nat) : Option String := if 3 ≤ k then some "body" else none

theorem fetch_url_retries_until_success_witness :
    get_cached none 1000 12 = none
    ∧ (1 : Nat) ≤ 3 ∧ (3 : Nat) ≤ 3
    ∧ c5net 3 = some "body"
    ∧ (fetch_url none c5net (fun _ => 0) 1000 12 3).1 = some "body" :=
  ⟨rfl, by decide, by decide, by decide,
   (fetch_url_retries_until_success none c5net (fun _ => 0) 1000 12 3 rfl).2.1 3 "body"
     (by decide) (by decide)
     (by
       intro j h1 h2
       interval_cases j <;> rfl)
     (by decide)⟩

/-! ### C6: an expired cache entry is a miss and is overwritten on refetch -/

/-- C6: a cache entry whose age `now - mtime` is at least `expiry_hours * 3600`
is reported as a miss by `get_cached`; the subsequent `fetch_url` for the URL
therefore performs real network attempts and, when the request succeeds, the
body is returned and the expired entry is overwritten with the fresh one; and
an entry is ever served from cache only while its age is strictly below the
TTL (in which case the served body is the stored one). -/
theorem cache_ttl_expiry_miss_and_refetch (e : CacheEntry) (net : Nat → Option String)
    (jitter : Nat → ℚ) (now ttl : ℚ) (retries : Nat) (body : String)
    (hexp : ttl * 3600 ≤ now - e.mtime) (hr : 1 ≤ retries) (hnet : net 1 = some body) :
    get_cached (some e) now ttl = none
    ∧ fetch_url (some e) net jitter now ttl retries = (some body, some ⟨now, body⟩, [])
    ∧ ∀ e2 b, get_cached (some e2) now ttl = some b →
        now - e2.mtime < ttl * 3600 ∧ b = e2.body := by
  have hmiss : get_cached (some e) now ttl = none := by
    rw [get_cached, if_neg (not_lt.mpr hexp)]
  refine ⟨hmiss, ?_, ?_⟩
  · obtain ⟨r, rfl⟩ := Nat.exists_eq_succ_of_ne_zero (by omega : retries ≠ 0)
    rw [fetch_url, hmiss]
    simp [fetchAttempts, hnet]
  · intro e2 b hb
    rw [get_cached] at hb
    by_cases hlt : now - e2.mtime < ttl * 3600
    · rw [if_pos hlt] at hb
      exact ⟨hlt, (Option.some.injEq _ _ ▸ hb).symm⟩
    · rw [if_neg hlt] at hb
      cases hb

def c6entry : CacheEntry := { mtime := 0, body := "stale" }

theorem cache_ttl_expiry_miss_and_refetch_witness :
    (12 : ℚ) * 3600 ≤ 43200 - c6entry.mtime
    ∧ (1 : Nat) ≤ 3
    ∧ get_cached (some c6entry) 43200 12 = none
    ∧ fetch_url (some c6entry) (fun _ => some "fresh") (fun _ => 0) 43200 12 3
        = (some "fresh", some { mtime := 43200, body := "fresh" }, []) :=
  ⟨by norm_num [c6entry], by decide,
   (cache_ttl_expiry_miss_and_refetch c6entry (fun _ => some "fresh") (fun _ => 0) 43200 12 3
     "fresh" (by norm_num [c6entry]) (by decide) rfl).1,
   (cache_ttl_expiry_miss_and_refetch c6entry (fun _ => some "fresh") (fun _ => 0) 43200 12 3
     "fresh" (by norm_num [c6entry]) (by decide) rfl).2.1⟩

/-! ### C7: the identity hash is case-insensitive per field, but trimmed only
as a whole -/

theorem strAppend_data (s t : String) : (s ++ t).data = s.data ++ t.data := by
  cases s
  cases t
  rfl

theorem strEq_of_data : ∀ s t : String, s.data = t.data → s = t
  | ⟨_⟩, ⟨_⟩, h => congrArg String.mk h

theorem lowerStr_append (s t : String) : lowerStr (s ++ t) = lowerStr s ++ lowerStr t := by
  cases s with
  | mk a =>
    cases t with
    | mk b =>
      show String.mk (List.map Char.toLower (a ++ b))
          = String.mk (List.map Char.toLower a ++ List.map Char.toLower b)
      rw [List.map_append]

theorem stripStr_space_cons (s : String) : stripStr (" " ++ s) = stripStr s := by
  cases s with
  | mk d =>
    show String.mk ((((' ' :: d).dropWhile isPySpace).reverse.dropWhile isPySpace).reverse)
        = String.mk (((d.dropWhile isPySpace).reverse.dropWhile isPySpace).reverse)
    rw [List.dropWhile_cons_of_pos (by decide)]

/-- C7 (amended): `generate_job_id` hashes
`f"{portal}:{company}:{role}:{location}".lower().strip()`, so it is invariant
under letter-case changes within each of the four fields, and under
whitespace at the extreme ends of the joined string (for instance leading
whitespace of the portal field) — but the per-field trimming asserted by the
original claim does not hold for the inner field boundaries. -/
theorem generate_job_id_case_insensitive (p c r l p2 c2 r2 l2 : String)
    (hp : lowerStr p = lowerStr p2) (hc : lowerStr c = lowerStr c2)
    (hr : lowerStr r = lowerStr r2) (hl : lowerStr l = lowerStr l2) :
    generate_job_id p c r l = generate_job_id p2 c2 r2 l2
    ∧ generate_job_id (" " ++ p) c r l = generate_job_id p c r l := by
  constructor
  · unfold generate_job_id
    have key : lowerStr (p ++ ":" ++ c ++ ":" ++ r ++ ":" ++ l)
        = lowerStr (p2 ++ ":" ++ c2 ++ ":" ++ r2 ++ ":" ++ l2) := by
      simp only [lowerStr_append, hp, hc, hr, hl]
    rw [key]
  · unfold generate_job_id
    have hassoc : " " ++ p ++ ":" ++ c ++ ":" ++ r ++ ":" ++ l
        = " " ++ (p ++ ":" ++ c ++ ":" ++ r ++ ":" ++ l) :=
      strEq_of_data _ _ (by simp [strAppend_data])
    rw [hassoc, lowerStr_append]
    have hsp : lowerStr " " = " " := by decide
    rw [hsp, stripStr_space_cons]

set_option maxRecDepth 10000 in
/-- C7 (counterexample): two records whose fields agree up to per-field
leading/trailing whitespace — the company differs only by a leading space,
which per-field trimming would remove — receive distinct identity hashes. -/
theorem generate_job_id_per_field_trim_cex :
    stripStr (lowerStr " Acme") = stripStr (lowerStr "Acme")
    ∧ generate_job_id "LinkedIn" " Acme" "PM" "Pune"
        ≠ generate_job_id "LinkedIn" "Acme" "PM" "Pune" := by
  constructor
  · rfl
  · decide

theorem generate_job_id_case_insensitive_witness :
    lowerStr "LinkedIn" = lowerStr "linkedin"
    ∧ lowerStr "Acme" = lowerStr "ACME"
    ∧ lowerStr "PM" = lowerStr "pm"
    ∧ lowerStr "Pune" = lowerStr "PUNE"
    ∧ generate_job_id "LinkedIn" "Acme" "PM" "Pune"
        = generate_job_id "linkedin" "ACME" "pm" "PUNE"
    ∧ generate_job_id (" " ++ "LinkedIn") "Acme" "PM" "Pune"
        = generate_job_id "LinkedIn" "Acme" "PM" "Pune" :=
  ⟨by decide, by decide, by decide, by decide,
   (generate_job_id_case_insensitive "LinkedIn" "Acme" "PM" "Pune" "linkedin" "ACME" "pm" "PUNE"
     (by decide) (by decide) (by decide) (by decide)).1,
   (generate_job_id_case_insensitive "LinkedIn" "Acme" "PM" "Pune" "LinkedIn" "Acme" "PM" "Pune"
     rfl rfl rfl rfl).2⟩

/-! ### C8: extractors emit only records with company and role, skipping bad
cards -/

theorem optTruthy_getD_ne (o : Option String) (h : optTruthy o = true) : o.getD "" ≠ "" := by
  cases o with
  | none => cases h
  | some s => simpa [optTruthy] using h

theorem linkedin_parse_cards_sound (pageLoc : String)
    (cards : List (Except PyErr LinkedInCard)) :
    ∀ j ∈ linkedin_parse_cards pageLoc cards, j.company ≠ "" ∧ j.role ≠ "" := by
  induction cards with
  | nil => intro j hj; cases hj
  | cons hd rest ih =>
    intro j hj
    cases hd with
    | error e =>
      rw [linkedin_parse_cards] at hj
      exact ih j hj
    | ok c =>
      rw [linkedin_parse_cards] at hj
      by_cases hg : (optTruthy c.title_el && optTruthy c.company_el) = true
      · rw [if_pos hg] at hj
        rcases List.mem_cons.mp hj with heq | hmem
        · rw [heq]
          have hg2 : optTruthy c.title_el = true ∧ optTruthy c.company_el = true := by
            simpa using hg
          exact ⟨optTruthy_getD_ne _ hg2.2, optTruthy_getD_ne _ hg2.1⟩
        · exact ih j hmem
      · rw [if_neg hg] at hj
        exact ih j hj

theorem parse_indeed_items_error_cons (today : Int) (err : PyErr)
    (rest : List (Except PyErr IndeedItem)) :
    _parse_indeed_items today (.error err :: rest) = _parse_indeed_items today rest := by
  rw [_parse_indeed_items]

theorem parse_indeed_items_date_error (today : Int) (it : IndeedItem)
    (rest : List (Except PyErr IndeedItem)) (e : Unit)
    (hdate : indeed_date it today = .error e) :
    _parse_indeed_items today (.ok it :: rest) = .error e := by
  rw [_parse_indeed_items, hdate]

theorem parse_indeed_items_rest_error (today : Int) (it : IndeedItem)
    (rest : List (Except PyErr IndeedItem)) (dp : String) (e : Unit)
    (hdate : indeed_date it today = .ok dp)
    (hrest : _parse_indeed_items today rest = .error e) :
    _parse_indeed_items today (.ok it :: rest) = .error e := by
  rw [_parse_indeed_items, hdate, hrest]

theorem parse_indeed_items_ok_cons (today : Int) (it : IndeedItem)
    (rest : List (Except PyErr IndeedItem)) (dp : String) (tail : List Job)
    (hdate : indeed_date it today = .ok dp)
    (hrest : _parse_indeed_items today rest = .ok tail) :
    _parse_indeed_items today (.ok it :: rest)
      = if it.title ≠ "" && it.company ≠ "" then .ok (indeedItemJob it dp :: tail)
        else .ok tail := by
  rw [_parse_indeed_items, hdate, hrest]

theorem indeed_items_sound (today : Int) (items : List (Except PyErr IndeedItem)) :
    ∀ jobs, _parse_indeed_items today items = .ok jobs →
      ∀ j ∈ jobs, j.company ≠ "" ∧ j.role ≠ "" := by
  induction items with
  | nil =>
    intro jobs hok j hj
    rw [_parse_indeed_items] at hok
    cases hok
    cases hj
  | cons hd rest ih =>
    intro jobs hok j hj
    cases hd with
    | error e =>
      rw [parse_indeed_items_error_cons] at hok
      exact ih jobs hok j hj
    | ok it =>
      cases hdate : indeed_date it today with
      | error e =>
        rw [parse_indeed_items_date_error today it rest e hdate] at hok
        cases hok
      | ok dp =>
        cases hrest : _parse_indeed_items today rest with
        | error e =>
          rw [parse_indeed_items_rest_error today it rest dp e hdate hrest] at hok
          cases hok
        | ok tail =>
          rw [parse_indeed_items_ok_cons today it rest dp tail hdate hrest] at hok
          by_cases hg : it.title = "" ∨ it.company = ""
          · rw [if_neg (by rcases hg with h | h <;> simp [h])] at hok
            injection hok with htl
            rw [← htl] at hj
            exact ih tail hrest j hj
          · push_neg at hg
            rw [if_pos (by simp [hg.1, hg.2])] at hok
            injection hok with htl
            rw [← htl] at hj
            rcases List.mem_cons.mp hj with heq | hmem
            · rw [heq]
              exact ⟨hg.2, hg.1⟩
            · exact ih tail hrest j hmem

/-- C8 (amended): the modelled extractors emit only records with non-empty
`company` and non-empty `role`, a fragment whose title or company is missing
or empty contributes no record while parsing of the remaining fragments
continues unchanged, and a fragment raising one of the exceptions the per-card
handler catches (any exception in the LinkedIn loop; `TypeError`, `KeyError`
or `AttributeError` in the Indeed item loop) is skipped with parsing
continuing — but an `OverflowError` raised by one Indeed item's date
computation is not among the caught types and aborts the whole item loop,
discarding the records of the remaining items in the same response. -/
theorem extractors_require_company_and_role :
    (∀ pageLoc cards, ∀ j ∈ linkedin_parse_cards pageLoc cards,
        j.company ≠ "" ∧ j.role ≠ "")
    ∧ (∀ pageLoc c rest, (optTruthy c.title_el && optTruthy c.company_el) = false →
        linkedin_parse_cards pageLoc (.ok c :: rest) = linkedin_parse_cards pageLoc rest)
    ∧ (∀ pageLoc err rest,
        linkedin_parse_cards pageLoc (.error err :: rest) = linkedin_parse_cards pageLoc rest)
    ∧ (∀ today items jobs, _parse_indeed_items today items = .ok jobs →
        ∀ j ∈ jobs, j.company ≠ "" ∧ j.role ≠ "")
    ∧ (∀ today it rest dp, indeed_date it today = .ok dp →
        it.title = "" ∨ it.company = "" →
        _parse_indeed_items today (.ok it :: rest) = _parse_indeed_items today rest)
    ∧ (∀ today err rest,
        _parse_indeed_items today (.error err :: rest) = _parse_indeed_items today rest)
    ∧ (∀ today it rest e, indeed_date it today = .error e →
        _parse_indeed_items today (.ok it :: rest) = .error e) := by
  refine ⟨?_, ?_, ?_, ?_, ?_, ?_, ?_⟩
  · intro pageLoc cards
    exact linkedin_parse_cards_sound pageLoc cards
  · intro pageLoc c rest hg
    rw [linkedin_parse_cards, if_neg (by simp [hg])]
  · intro pageLoc err rest
    rw [linkedin_parse_cards]
  · intro today items jobs hok
    exact indeed_items_sound today items jobs hok
  · intro today it rest dp hdate hg
    cases hrest : _parse_indeed_items today rest with
    | error e =>
      rw [parse_indeed_items_rest_error today it rest dp e hdate hrest]
    | ok tail =>
      rw [parse_indeed_items_ok_cons today it rest dp tail hdate hrest,
        if_neg (by rcases hg with h | h <;> simp [h])]
  · intro today err rest
    exact parse_indeed_items_error_cons today err rest
  · intro today it rest e hdate
    exact parse_indeed_items_date_error today it rest e hdate

def c8goodCard : LinkedInCard :=
  { title_el := some "Product Manager", company_el := some "Acme Bank",
    location_el := some "Bengaluru", link_href := some "https://x",
    date_attr := some "2026-10-10" }

def c8badCard : LinkedInCard :=
  { title_el := some "Product Manager", company_el := some "",
    location_el := none, link_href := none, date_attr := none }

def c8goodItem : IndeedItem :=
  { title := "Data Analyst", company := "Beta Corp", loc := "Pune",
    datePublished := none, pubDate := none, createDate := none,
    formattedRelativeTime := "Today", key := "k1", salaryText := "", snippet := "" }

def c8badItem : IndeedItem :=
  { title := "", company := "Beta Corp", loc := "Pune",
    datePublished := none, pubDate := none, createDate := none,
    formattedRelativeTime := "", key := "", salaryText := "", snippet := "" }

/-- A well-formed Indeed item whose relative-date text makes the date
computation raise `OverflowError` (the subtraction lands before
`datetime.min`), an exception type the per-item handler does not catch. -/
def c8overflowItem : IndeedItem :=
  { title := "Product Manager", company := "Acme Bank", loc := "Bengaluru",
    datePublished := none, pubDate := none, createDate := none,
    formattedRelativeTime := "800000 days ago", key := "k9", salaryText := "",
    snippet := "" }

/-- C8 (counterexample): in `_parse_indeed_initial_data`, an `OverflowError`
from one item's date computation (relative-date text `"800000 days ago"`, with
the current date 2026-10-12, ordinal 739901) is not among the caught
`(TypeError, KeyError, AttributeError)` and aborts the whole item loop: the
two-item response yields no records at all, although the remaining item alone
would have yielded its record — refuting "a parse failure on one card is
caught and skipped so that parsing of the remaining cards in the same
response continues". -/
theorem indeed_overflow_aborts_item_loop_cex :
    _parse_indeed_items 739901 [.ok c8overflowItem, .ok c8goodItem] = .error ()
    ∧ _parse_indeed_items 739901 [.ok c8goodItem]
        = .ok [indeedItemJob c8goodItem "2026-10-12"] := by
  constructor
  · rfl
  · rfl

theorem extractors_require_company_and_role_witness :
    ((linkedinCardJob "Bengaluru" c8goodCard).company ≠ ""
      ∧ (linkedinCardJob "Bengaluru" c8goodCard).role ≠ "")
    ∧ linkedin_parse_cards "Bengaluru" [.ok c8badCard, .ok c8goodCard]
        = linkedin_parse_cards "Bengaluru" [.ok c8goodCard]
    ∧ linkedin_parse_cards "Bengaluru" [.error PyErr.typeErr, .ok c8goodCard]
        = linkedin_parse_cards "Bengaluru" [.ok c8goodCard]
    ∧ ((indeedItemJob c8goodItem "2026-10-12").company ≠ ""
      ∧ (indeedItemJob c8goodItem "2026-10-12").role ≠ "")
    ∧ _parse_indeed_items 739901 [.ok c8badItem, .ok c8goodItem]
        = _parse_indeed_items 739901 [.ok c8goodItem]
    ∧ _parse_indeed_items 739901 [.error PyErr.keyErr, .ok c8goodItem]
        = _parse_indeed_items 739901 [.ok c8goodItem]
    ∧ _parse_indeed_items 739901 [.ok c8overflowItem, .ok c8goodItem] = .error () :=
  ⟨extractors_require_company_and_role.1 "Bengaluru" [.ok c8goodCard]
     (linkedinCardJob "Bengaluru" c8goodCard) (by decide),
   extractors_require_company_and_role.2.1 "Bengaluru" c8badCard [.ok c8goodCard] (by decide),
   extractors_require_company_and_role.2.2.1 "Bengaluru" PyErr.typeErr [.ok c8goodCard],
   extractors_require_company_and_role.2.2.2.1 739901 [.ok c8goodItem]
     [indeedItemJob c8goodItem "2026-10-12"] (by rfl)
     (indeedItemJob c8goodItem "2026-10-12") (by decide),
   extractors_require_company_and_role.2.2.2.2.1 739901 c8badItem [.ok c8goodItem] ""
     (by rfl) (by decide),
   extractors_require_company_and_role.2.2.2.2.2.1 739901 PyErr.keyErr [.ok c8goodItem],
   extractors_require_company_and_role.2.2.2.2.2.2 739901 c8overflowItem [.ok c8goodItem] ()
     (by rfl)⟩

/-! ### C9: which extractors emit a `date_posted` field -/

theorem hiringcafe_parse_cards_dates (base_url search_url : String)
    (cards : List (Except PyErr MarkupCard)) :
    ∀ j ∈ hiringcafe_parse_cards base_url search_url cards, j.date_posted = none := by
  induction cards with
  | nil => intro j hj; cases hj
  | cons hd rest ih =>
    intro j hj
    cases hd with
    | error e =>
      rw [hiringcafe_parse_cards] at hj
      exact ih j hj
    | ok c =>
      rw [hiringcafe_parse_cards] at hj
      by_cases hg : (optTruthy c.title_el && optTruthy c.company_el) = true
      · rw [if_pos hg] at hj
        rcases List.mem_cons.mp hj with heq | hmem
        · rw [heq]; rfl
        · exact ih j hmem
      · rw [if_neg hg] at hj
        exact ih j hj

theorem angellist_parse_cards_dates (pageLoc search_url : String)
    (cards : List (Except PyErr MarkupCard)) :
    ∀ j ∈ angellist_parse_cards pageLoc search_url cards, j.date_posted = none := by
  induction cards with
  | nil => intro j hj; cases hj
  | cons hd rest ih =>
    intro j hj
    cases hd with
    | error e =>
      rw [angellist_parse_cards] at hj
      exact ih j hj
    | ok c =>
      rw [angellist_parse_cards] at hj
      by_cases hg : (optTruthy c.title_el && optTruthy c.company_el) = true
      · rw [if_pos hg] at hj
        rcases List.mem_cons.mp hj with heq | hmem
        · rw [heq]; rfl
        · exact ih j hmem
      · rw [if_neg hg] at hj
        exact ih j hj

theorem linkedin_parse_cards_dates (pageLoc : String)
    (cards : List (Except PyErr LinkedInCard)) :
    ∀ j ∈ linkedin_parse_cards pageLoc cards, j.date_posted = some (j.date_posted.getD "") := by
  induction cards with
  | nil => intro j hj; cases hj
  | cons hd rest ih =>
    intro j hj
    cases hd with
    | error e =>
      rw [linkedin_parse_cards] at hj
      exact ih j hj
    | ok c =>
      rw [linkedin_parse_cards] at hj
      by_cases hg : (optTruthy c.title_el && optTruthy c.company_el) = true
      · rw [if_pos hg] at hj
        rcases List.mem_cons.mp hj with heq | hmem
        · rw [heq]; rfl
        · exact ih j hmem
      · rw [if_neg hg] at hj
        exact ih j hj

theorem indeed_items_dates (today : Int) (items : List (Except PyErr IndeedItem)) :
    ∀ jobs, _parse_indeed_items today items = .ok jobs →
      ∀ j ∈ jobs, j.date_posted = some (j.date_posted.getD "") := by
  induction items with
  | nil =>
    intro jobs hok j hj
    rw [_parse_indeed_items] at hok
    cases hok
    cases hj
  | cons hd rest ih =>
    intro jobs hok j hj
    cases hd with
    | error e =>
      rw [parse_indeed_items_error_cons] at hok
      exact ih jobs hok j hj
    | ok it =>
      cases hdate : indeed_date it today with
      | error e =>
        rw [parse_indeed_items_date_error today it rest e hdate] at hok
        cases hok
      | ok dp =>
        cases hrest : _parse_indeed_items today rest with
        | error e =>
          rw [parse_indeed_items_rest_error today it rest dp e hdate hrest] at hok
          cases hok
        | ok tail =>
          rw [parse_indeed_items_ok_cons today it rest dp tail hdate hrest] at hok
          by_cases hg : (it.title ≠ "" && it.company ≠ "") = true
          · rw [if_pos hg] at hok
            injection hok with htl
            rw [← htl] at hj
            rcases List.mem_cons.mp hj with heq | hmem
            · rw [heq]; rfl
            · exact ih tail hrest j hmem
          · rw [if_neg hg] at hok
            injection hok with htl
            rw [← htl] at hj
            exact ih tail hrest j hj

/-- C9 (amended): every record of the LinkedIn card loop and of the Indeed
embedded-JSON loop carries a `date_posted` key (possibly the empty string);
records of the HiringCafe and Wellfound card loops carry the other normalized
fields but no `date_posted` key at all. -/
theorem date_posted_presence_by_extractor :
    (∀ pageLoc cards, ∀ j ∈ linkedin_parse_cards pageLoc cards,
        j.date_posted = some (j.date_posted.getD ""))
    ∧ (∀ today items jobs, _parse_indeed_items today items = .ok jobs →
        ∀ j ∈ jobs, j.date_posted = some (j.date_posted.getD ""))
    ∧ (∀ base_url search_url cards,
        ∀ j ∈ hiringcafe_parse_cards base_url search_url cards, j.date_posted = none)
    ∧ (∀ pageLoc search_url cards,
        ∀ j ∈ angellist_parse_cards pageLoc search_url cards, j.date_posted = none) :=
  ⟨linkedin_parse_cards_dates, indeed_items_dates, hiringcafe_parse_cards_dates,
   angellist_parse_cards_dates⟩

def c9card : MarkupCard :=
  { title_el := some "Product Manager", company_el := some "Acme Bank",
    location_el := some "Bengaluru", salary_el := none, link_href := some "/jobs/1" }

/-- C9 (counterexample): the HiringCafe extractor emits this well-formed
record (non-empty company and role), yet the emitted dictionary has no
`date_posted` key, refuting "every emitted record has a `date_posted` field".
-/
theorem hiringcafe_missing_date_posted_cex :
    (hiringcafe_parse_cards "https://hiring.cafe" "https://hiring.cafe/search?q=pm"
        [Except.ok c9card]).map Job.date_posted = [none]
    ∧ (hiringcafe_parse_cards "https://hiring.cafe" "https://hiring.cafe/search?q=pm"
        [Except.ok c9card]).map Job.company = ["Acme Bank"] := by
  constructor
  · rfl
  · rfl

def c9lcard : LinkedInCard :=
  { title_el := some "Product Manager", company_el := some "Acme Bank",
    location_el := some "Bengaluru", link_href := some "https://x",
    date_attr := some "2026-10-11" }

theorem date_posted_presence_by_extractor_witness :
    (linkedinCardJob "Bengaluru" c9lcard).date_posted
        = some ((linkedinCardJob "Bengaluru" c9lcard).date_posted.getD "")
    ∧ (hiringcafeCardJob "https://hiring.cafe" "u" c9card).date_posted = none
    ∧ (angellistCardJob "Bengaluru" "u" c9card).date_posted = none :=
  ⟨date_posted_presence_by_extractor.1 "Bengaluru" [.ok c9lcard]
     (linkedinCardJob "Bengaluru" c9lcard) (by decide),
   date_posted_presence_by_extractor.2.2.1 "https://hiring.cafe" "u" [.ok c9card]
     (hiringcafeCardJob "https://hiring.cafe" "u" c9card) (by decide),
   date_posted_presence_by_extractor.2.2.2 "Bengaluru" "u" [.ok c9card]
     (angellistCardJob "Bengaluru" "u" c9card) (by decide)⟩

/-! ### C10: the relative-date normalizer never yields a future date, but can
overflow -/

theorem parse_relative_date_ord_bounded (text : String) (today : Int) (h : 1 ≤ today) :
    _parse_relative_date_ord text today = .error ()
    ∨ _parse_relative_date_ord text today = .ok none
    ∨ ∃ d : Int, 1 ≤ d ∧ d ≤ today ∧ _parse_relative_date_ord text today = .ok (some d) := by
  rw [_parse_relative_date_ord]
  dsimp only
  split_ifs
  all_goals first
    | exact Or.inl rfl
    | exact Or.inr (Or.inl rfl)
    | (refine Or.inr (Or.inr ⟨_, ?_, ?_, rfl⟩) <;> omega)

/-- C10 (amended): for every input string, `_parse_relative_date` either
raises `OverflowError` (when the parsed quantity exceeds the `timedelta`
bound, or the subtraction lands before the smallest representable calendar
date — e.g. `"800000 days ago"`), or returns the empty string, or returns the
formatted date of a day not later than the current date; it never produces a
future date. -/
theorem parse_relative_date_bounded (text : String) (today : Int) (h : 1 ≤ today) :
    _parse_relative_date text today = .error ()
    ∨ _parse_relative_date text today = .ok ""
    ∨ ∃ d : Int, 1 ≤ d ∧ d ≤ today ∧ _parse_relative_date text today = .ok (formatDate d) := by
  rcases parse_relative_date_ord_bounded text today h with he | hn | ⟨d, h1, h2, hs⟩
  · left
    rw [_parse_relative_date, he]
  · right; left
    rw [_parse_relative_date, hn]
  · right; right
    exact ⟨d, h1, h2, by rw [_parse_relative_date, hs]⟩

/-- C10 (counterexample): on the input `"800000 days ago"`, with the current
date 2026-10-12 (ordinal 739901), the Python code raises `OverflowError` — the
subtraction lands before `datetime.min` — instead of returning the empty
string or any date, so "for every input string the normalizer returns ..." is
false as stated. -/
theorem parse_relative_date_overflow_cex :
    _parse_relative_date "800000 days ago" 739901 = .error () := by
  rfl

theorem parse_relative_date_bounded_witness :
    (1 : Int) ≤ 739901
    ∧ (_parse_relative_date "3 days ago" 739901 = .error ()
      ∨ _parse_relative_date "3 days ago" 739901 = .ok ""
      ∨ ∃ d : Int, 1 ≤ d ∧ d ≤ 739901
          ∧ _parse_relative_date "3 days ago" 739901 = .ok (formatDate d)) :=
  ⟨by decide, parse_relative_date_bounded "3 days ago" 739901 (by decide)⟩
